import Mathlib

/-
Verification development for the fastvpinns FE_2D core.

Shallow embedding of:
  * src/fastvpinns/FE_2D/basis_2d_QN_Chebyshev_2.py  (class Basis2DQNChebyshev2)
  * src/fastvpinns/FE_2D/fespace2d.py                (class Fespace2D)

Real numbers are modelled by ℚ (exact arithmetic; the Python code uses
float64).  numpy 2-D arrays are modelled by List (List ℚ) in row-major
order.  Python exceptions are modelled by an Except monad with an explicit
error type; Python list indexing (including negative indices) is modelled
by pyResolveIndex / pyListGet.
-/

namespace FastVPinns

/-! ## Python runtime model -/

/-- Errors raised by the embedded Python code: `ValueError(msg)`,
`IndexError` from list subscription, `KeyError(tag)` from a dict lookup. -/
inductive PyErr where
  | valueError (msg : String)
  | indexError
  | keyError (tag : ℕ)
deriving DecidableEq, Repr

/-- Python list index resolution: a nonnegative index `i` is valid iff
`i < len`; a negative index `i` addresses `len + i` and is valid iff
`0 ≤ len + i`.  Out of range raises `IndexError`. -/
def pyResolveIndex (len : ℕ) (i : ℤ) : Except PyErr ℕ :=
  if 0 ≤ i then
    if i < (len : ℤ) then Except.ok i.toNat else Except.error PyErr.indexError
  else
    if 0 ≤ i + (len : ℤ) then Except.ok (i + (len : ℤ)).toNat
    else Except.error PyErr.indexError

/-- Python `l[i]` on a list, with negative-index semantics. -/
def pyListGet {α : Type} (l : List α) (dflt : α) (i : ℤ) : Except PyErr α :=
  match pyResolveIndex l.length i with
  | Except.ok k => Except.ok (l.getD k dflt)
  | Except.error e => Except.error e

/-! ## Jacobi polynomials (model of scipy.special.jacobi)

`jacobiP a b n x` is the classical Jacobi polynomial `P_n^{(a,b)}(x)`,
defined by `P_0 = 1`, `P_1(x) = ((a+b+2)x + (a-b))/2` and the standard
three-term recurrence
`2m(m+a+b)(2m+a+b-2) P_m = (2m+a+b-1)[(2m+a+b)(2m+a+b-2)x + a²-b²] P_{m-1}
 - 2(m+a-1)(m+b-1)(2m+a+b) P_{m-2}`.
For every parameter pair used by the source (`a = b ∈ {-1/2, 1/2, 3/2}`)
the divisor is nonzero for all `m ≥ 2`. -/

/-- Pair `(P_n, P_{n+1})` of consecutive Jacobi polynomial values. -/
def jacobiAux (a b x : ℚ) : ℕ → ℚ × ℚ
  | 0 => (1, ((a + b + 2) * x + (a - b)) / 2)
  | n + 1 =>
    let p := jacobiAux a b x n
    let m : ℚ := (n : ℚ) + 2
    (p.2,
      ((2 * m + a + b - 1) * ((2 * m + a + b) * (2 * m + a + b - 2) * x + a ^ 2 - b ^ 2) * p.2
          - 2 * (m + a - 1) * (m + b - 1) * (2 * m + a + b) * p.1)
        / (2 * m * (m + a + b) * (2 * m + a + b - 2)))

/-- Jacobi polynomial `P_n^{(a,b)}` evaluated at `x`. -/
def jacobiP (a b : ℚ) (n : ℕ) (x : ℚ) : ℚ := (jacobiAux a b x n).1

namespace Basis2DQNChebyshev2

/-- Method `jacobi_wrapper(n, a, b, x)`: evaluate `jacobi(n, a, b)` at `x`
(argument order as in the source). -/
def jacobi_wrapper (n : ℕ) (a b : ℚ) (x : ℚ) : ℚ := jacobiP a b n x

/-- Method `test_fcnx(n_test, x)`: for `n = 1 .. n_test` (here `n = m + 1`
with `m` ranging over `List.range n_test`) append the vector
`jacobi(n+1,-1/2,-1/2)(x)/jacobi(n+1,-1/2,-1/2)(1)
 - jacobi(n-1,-1/2,-1/2)(x)/jacobi(n-1,-1/2,-1/2)(1)`. -/
def test_fcnx (n_test : ℕ) (x : List ℚ) : List (List ℚ) :=
  (List.range n_test).map (fun m =>
    x.map (fun xp =>
      jacobi_wrapper (m + 2) (-1/2) (-1/2) xp / jacobi_wrapper (m + 2) (-1/2) (-1/2) 1
        - jacobi_wrapper m (-1/2) (-1/2) xp / jacobi_wrapper m (-1/2) (-1/2) 1))

/-- Method `test_fcny(n_test, y)`: identical construction on the y axis. -/
def test_fcny (n_test : ℕ) (y : List ℚ) : List (List ℚ) :=
  (List.range n_test).map (fun m =>
    y.map (fun yp =>
      jacobi_wrapper (m + 2) (-1/2) (-1/2) yp / jacobi_wrapper (m + 2) (-1/2) (-1/2) 1
        - jacobi_wrapper m (-1/2) (-1/2) yp / jacobi_wrapper m (-1/2) (-1/2) 1))

/-- Row `n` of the first return value of `dtest_fcn` (first derivative of
the 1D test function); branch structure (`n == 1` / `n == 2` / else)
exactly as in the source.  The `n == 2` and else branches are textually
identical in the source. -/
def d1test_row (n : ℕ) (x : List ℚ) : List ℚ :=
  if n = 1 then
    x.map (fun xp =>
      (((n : ℚ) + 1) / 2) * jacobi_wrapper n (1/2) (1/2) xp
        / jacobi_wrapper (n + 1) (-1/2) (-1/2) 1)
  else if n = 2 then
    x.map (fun xp =>
      (((n : ℚ) + 1) / 2) * jacobi_wrapper n (1/2) (1/2) xp
          / jacobi_wrapper (n + 1) (-1/2) (-1/2) 1
        - (((n : ℚ) - 1) / 2) * jacobi_wrapper (n - 2) (1/2) (1/2) xp
          / jacobi_wrapper (n - 1) (-1/2) (-1/2) 1)
  else
    x.map (fun xp =>
      (((n : ℚ) + 1) / 2) * jacobi_wrapper n (1/2) (1/2) xp
          / jacobi_wrapper (n + 1) (-1/2) (-1/2) 1
        - (((n : ℚ) - 1) / 2) * jacobi_wrapper (n - 2) (1/2) (1/2) xp
          / jacobi_wrapper (n - 1) (-1/2) (-1/2) 1)

/-- Row `n` of the second return value of `dtest_fcn` (second derivative of
the 1D test function); branch structure (`n == 1` / `n == 2` / else)
exactly as in the source: the first two branches carry no subtraction
term, the `n ≥ 3` branch subtracts the lower-order term. -/
def d2test_row (n : ℕ) (x : List ℚ) : List ℚ :=
  if n = 1 then
    x.map (fun xp =>
      (((n : ℚ) + 2) * ((n : ℚ) + 1) / (2 * 2)) * jacobi_wrapper (n - 1) (3/2) (3/2) xp
        / jacobi_wrapper (n + 1) (-1/2) (-1/2) 1)
  else if n = 2 then
    x.map (fun xp =>
      (((n : ℚ) + 2) * ((n : ℚ) + 1) / (2 * 2)) * jacobi_wrapper (n - 1) (3/2) (3/2) xp
        / jacobi_wrapper (n + 1) (-1/2) (-1/2) 1)
  else
    x.map (fun xp =>
      (((n : ℚ) + 2) * ((n : ℚ) + 1) / (2 * 2)) * jacobi_wrapper (n - 1) (3/2) (3/2) xp
          / jacobi_wrapper (n + 1) (-1/2) (-1/2) 1
        - ((n : ℚ) * ((n : ℚ) - 1) / (2 * 2)) * jacobi_wrapper (n - 3) (3/2) (3/2) xp
          / jacobi_wrapper (n - 1) (-1/2) (-1/2) 1)

/-- Method `dtest_fcn(n_test, x)`: the loop `for n in range(1, n_test+1)`
appends exactly one row to each of the two result lists per iteration
(`d1test_total`, `d2test_total`). -/
def dtest_fcn (n_test : ℕ) (x : List ℚ) : List (List ℚ) × List (List ℚ) :=
  ((List.range n_test).map (fun m => d1test_row (m + 1) x),
   (List.range n_test).map (fun m => d2test_row (m + 1) x))

/-- numpy slice assignment `vals[start : start + len(block), :] = block`
(defined for `start + len(block) ≤ len(vals)`, the only case the source
exercises). -/
def sliceAssign (vals : List (List ℚ)) (start : ℕ) (block : List (List ℚ)) :
    List (List ℚ) :=
  vals.take start ++ block ++ vals.drop (start + block.length)

/-- numpy broadcast product `row * m` of a `(P,)` vector with an `(n, P)`
matrix: row `j` of the result is the elementwise product `row * m[j]`. -/
def broadcastMul (row : List ℚ) (m : List (List ℚ)) : List (List ℚ) :=
  m.map (fun r => List.zipWith (fun a b => a * b) row r)

/-- The assembly loop shared by `value` / `gradx` / ... :
`for i in range(n): values[n*i : n*(i+1), :] = tx[i, :] * ty`. -/
def blockLoop (n : ℕ) (tx ty : List (List ℚ)) (init : List (List ℚ)) :
    List (List ℚ) :=
  (List.range n).foldl
    (fun vals i => sliceAssign vals (n * i) (broadcastMul (tx.getD i []) ty)) init

/-- Method `value(xi, eta)`: `n = int(np.sqrt(num_shape_functions))`,
`values = np.zeros((num_shape_functions, len(xi)))`, then the block loop
with `test_fcnx` rows against the `test_fcny` matrix. -/
def value (num_shape_functions : ℕ) (xi eta : List ℚ) : List (List ℚ) :=
  let n := Nat.sqrt num_shape_functions
  blockLoop n (test_fcnx n xi) (test_fcny n eta)
    (List.replicate num_shape_functions (List.replicate xi.length 0))

/-- Method `gradx(xi, eta)`: block loop with `dtest_fcn(xi)[0]` rows
against the `test_fcny` matrix. -/
def gradx (num_shape_functions : ℕ) (xi eta : List ℚ) : List (List ℚ) :=
  let n := Nat.sqrt num_shape_functions
  blockLoop n (dtest_fcn n xi).1 (test_fcny n eta)
    (List.replicate num_shape_functions (List.replicate xi.length 0))

/-- Method `grady(xi, eta)`: block loop with `test_fcnx` rows against the
`dtest_fcn(eta)[0]` matrix. -/
def grady (num_shape_functions : ℕ) (xi eta : List ℚ) : List (List ℚ) :=
  let n := Nat.sqrt num_shape_functions
  blockLoop n (test_fcnx n xi) (dtest_fcn n eta).1
    (List.replicate num_shape_functions (List.replicate xi.length 0))

/-- Method `gradxx(xi, eta)`: block loop with `dtest_fcn(xi)[1]` rows
against the `test_fcny` matrix. -/
def gradxx (num_shape_functions : ℕ) (xi eta : List ℚ) : List (List ℚ) :=
  let n := Nat.sqrt num_shape_functions
  blockLoop n (dtest_fcn n xi).2 (test_fcny n eta)
    (List.replicate num_shape_functions (List.replicate xi.length 0))

/-- Method `gradxy(xi, eta)`: block loop with `dtest_fcn(xi)[0]` rows
against the `dtest_fcn(eta)[0]` matrix. -/
def gradxy (num_shape_functions : ℕ) (xi eta : List ℚ) : List (List ℚ) :=
  let n := Nat.sqrt num_shape_functions
  blockLoop n (dtest_fcn n xi).1 (dtest_fcn n eta).1
    (List.replicate num_shape_functions (List.replicate xi.length 0))

/-- Method `gradyy(xi, eta)`: block loop with `test_fcnx` rows against the
`dtest_fcn(eta)[1]` matrix. -/
def gradyy (num_shape_functions : ℕ) (xi eta : List ℚ) : List (List ℚ) :=
  let n := Nat.sqrt num_shape_functions
  blockLoop n (test_fcnx n xi) (dtest_fcn n eta).2
    (List.replicate num_shape_functions (List.replicate xi.length 0))

end Basis2DQNChebyshev2

/-! ## The discretization space (class Fespace2D)

The per-cell record built by `FE2D_Cell` (a collaborator whose source is
not part of this repository snapshot; only its fields as read by
`fespace2d.py` matter here) is modelled by `CellRecord`, holding exactly
the fields `fespace2d.py` reads or writes. -/

/-- Fields of an `FE2D_Cell` object as consumed by `Fespace2D`. -/
structure CellRecord where
  basis_at_quad : List (List ℚ)
  basis_gradx_at_quad : List (List ℚ)
  quad_actual_coordinates : List (List ℚ)
  mult : List (List ℚ)
  forcing_at_quad : List (List ℚ)
  num_shape_functions : ℕ
  forcing_function : ℚ → ℚ → ℚ

/-- Default cell used as the `getD` placeholder (never read at a resolved
in-range index). -/
def dummyCell : CellRecord :=
  ⟨[], [], [], [], [], 0, fun _ _ => 0⟩

/-- The `Fespace2D` object after construction.  `boundary_points` is the
ordered tag ↦ points mapping (Python dicts preserve insertion order);
`bound_function_dict` is the ordered tag ↦ boundary-value-function
mapping. -/
structure Fespace where
  n_cells : ℕ
  fe_cell : List CellRecord
  boundary_points : List (ℕ × List (ℚ × ℚ))
  bound_function_dict : List (ℕ × (ℚ → ℚ → ℚ))
  total_dofs : ℕ
  total_dirichlet_dofs : ℕ
  dirichlet_x : List (ℚ × ℚ)
  dirichlet_y : List ℚ

/-- The bound-check used verbatim by every per-cell accessor of
`Fespace2D`:
`if cell_index > self.n_cells: raise ValueError(f"cell_index should be
less than {self.n_cells}")`. -/
def boundsGuard (n_cells : ℕ) (cell_index : ℤ) : Except PyErr Unit :=
  if cell_index > (n_cells : ℤ) then
    Except.error (PyErr.valueError ("cell_index should be less than " ++ toString n_cells))
  else Except.ok ()

/-- Accessor `get_shape_function_val(cell_index)`: guard, then
`self.fe_cell[cell_index].basis_at_quad.copy()` (the `.copy()` is the
identity in this immutable model). -/
def Fespace.get_shape_function_val (sp : Fespace) (cell_index : ℤ) :
    Except PyErr (List (List ℚ)) :=
  match boundsGuard sp.n_cells cell_index with
  | Except.error e => Except.error e
  | Except.ok _ =>
    match pyListGet sp.fe_cell dummyCell cell_index with
    | Except.error e => Except.error e
    | Except.ok cell => Except.ok cell.basis_at_quad

/-- Accessor `get_shape_function_grad_x(cell_index)`: guard, then
`self.fe_cell[cell_index].basis_gradx_at_quad.copy()`. -/
def Fespace.get_shape_function_grad_x (sp : Fespace) (cell_index : ℤ) :
    Except PyErr (List (List ℚ)) :=
  match boundsGuard sp.n_cells cell_index with
  | Except.error e => Except.error e
  | Except.ok _ =>
    match pyListGet sp.fe_cell dummyCell cell_index with
    | Except.error e => Except.error e
    | Except.ok cell => Except.ok cell.basis_gradx_at_quad

/-- Accessor `get_quadrature_actual_coordinates(cell_index)`: guard, then
`self.fe_cell[cell_index].quad_actual_coordinates.copy()`. -/
def Fespace.get_quadrature_actual_coordinates (sp : Fespace) (cell_index : ℤ) :
    Except PyErr (List (List ℚ)) :=
  match boundsGuard sp.n_cells cell_index with
  | Except.error e => Except.error e
  | Except.ok _ =>
    match pyListGet sp.fe_cell dummyCell cell_index with
    | Except.error e => Except.error e
    | Except.ok cell => Except.ok cell.quad_actual_coordinates

/-- Accessor `get_quadrature_weights(cell_index)`: guard, then
`self.fe_cell[cell_index].mult.copy()`. -/
def Fespace.get_quadrature_weights (sp : Fespace) (cell_index : ℤ) :
    Except PyErr (List (List ℚ)) :=
  match boundsGuard sp.n_cells cell_index with
  | Except.error e => Except.error e
  | Except.ok _ =>
    match pyListGet sp.fe_cell dummyCell cell_index with
    | Except.error e => Except.error e
    | Except.ok cell => Except.ok cell.mult

/-- Body of `get_forcing_function_values` after index resolution. -/
def forcingBody (sp : Fespace) (ri : ℕ) : Except PyErr (Fespace × List (List ℚ)) :=
  let cell := sp.fe_cell.getD ri dummyCell
  let n_shape_functions := cell.num_shape_functions
  let nq := (cell.basis_at_quad.getD 0 []).length
  let f_integral :=
    (List.range n_shape_functions).map (fun i =>
      [(List.range nq).foldl
        (fun val q =>
          val + (cell.basis_at_quad.getD i []).getD q 0
              * cell.forcing_function
                  ((cell.quad_actual_coordinates.getD q []).getD 0 0)
                  ((cell.quad_actual_coordinates.getD q []).getD 1 0))
        0])
  let sp2 := { sp with
    fe_cell := sp.fe_cell.set ri { cell with forcing_at_quad := f_integral } }
  Except.ok (sp2, f_integral)

/-- Accessor `get_forcing_function_values(cell_index)`: guard, then
`f_integral[i] = Σ_q basis_at_quad[i, q] * forcing_function(x_q, y_q)`
(accumulated `val += ...` as a fold), where `q` ranges over
`basis_at_quad.shape[1]` and `i` over
`basis_function.num_shape_functions`; the result (an `(n, 1)` column,
each row a singleton) is stored into the cell's `forcing_at_quad`,
overwriting it, and a copy is returned. -/
def Fespace.get_forcing_function_values (sp : Fespace) (cell_index : ℤ) :
    Except PyErr (Fespace × List (List ℚ)) :=
  match boundsGuard sp.n_cells cell_index with
  | Except.error e => Except.error e
  | Except.ok _ =>
    match pyResolveIndex sp.fe_cell.length cell_index with
    | Except.error e => Except.error e
    | Except.ok ri =>
      forcingBody sp ri

/-- Accessor `get_forcing_data_for_training()`: stack the cells'
`forcing_at_quad` columns.  `np.squeeze(np.array(main_data).T, axis=0)`
maps the `(n_cells, L, 1)` stack to an `(L, n_cells)` matrix with entry
`[i][j] = main_data[j][i][0]`, where `L` is the common per-cell column
length. -/
def Fespace.get_forcing_data_for_training (sp : Fespace) : List (List ℚ) :=
  let main_data := (List.range sp.n_cells).map
    (fun i => (sp.fe_cell.getD i dummyCell).forcing_at_quad)
  let L := (main_data.getD 0 []).length
  (List.range L).map (fun i =>
    (List.range sp.n_cells).map (fun j =>
      ((main_data.getD j []).getD i []).getD 0 0))

/-- The `total_dofs` accumulation of `set_finite_elements`:
`dof += self.fe_cell[i].basis_at_quad.shape[1]` over all cells
(`shape[1]` of a rectangular 2-D array is the length of its first row). -/
def set_finite_elements_dof_count (cells : List CellRecord) : ℕ :=
  cells.foldl (fun dof c => dof + (c.basis_at_quad.getD 0 []).length) 0

/-- Inner loop of `generate_dirichlet_boundary_data` for one boundary tag:
`for pt in bound_pts: x.append(pt); val = bound_function_dict[bound_id](pt)`.
The dict lookup happens once per point, so a tag with no points never
performs it; a missing tag raises `KeyError` at its first point. -/
def dirichletPts (dict : List (ℕ × (ℚ → ℚ → ℚ))) (tag : ℕ) :
    List (ℚ × ℚ) → Except PyErr (List (ℚ × ℚ) × List ℚ)
  | [] => Except.ok ([], [])
  | pt :: rest =>
    match List.lookup tag dict with
    | none => Except.error (PyErr.keyError tag)
    | some f =>
      match dirichletPts dict tag rest with
      | Except.error e => Except.error e
      | Except.ok (xs, ys) => Except.ok (pt :: xs, f pt.1 pt.2 :: ys)

/-- Method `generate_dirichlet_boundary_data()`: iterate the boundary-point
mapping in order, appending coordinates and boundary-function values
(a scalar value; the source wraps it in a `(1,1)` array). -/
def generate_dirichlet_boundary_data (dict : List (ℕ × (ℚ → ℚ → ℚ))) :
    List (ℕ × List (ℚ × ℚ)) → Except PyErr (List (ℚ × ℚ) × List ℚ)
  | [] => Except.ok ([], [])
  | (tag, pts) :: rest =>
    match dirichletPts dict tag pts with
    | Except.error e => Except.error e
    | Except.ok (xs, ys) =>
      match generate_dirichlet_boundary_data dict rest with
      | Except.error e => Except.error e
      | Except.ok (xr, yr) => Except.ok (xs ++ xr, ys ++ yr)

/-- Constructor `Fespace2D.__init__`: reject `cell_type == "triangle"`,
set `n_cells`, build the cells (the `FE2D_Cell` construction itself is an
external collaborator; the built records are a parameter here) while
accumulating `total_dofs`, then extract the Dirichlet boundary data and
set `total_dirichlet_dofs = len(x)`. -/
def Fespace.make (cells : List CellRecord)
    (boundary_points : List (ℕ × List (ℚ × ℚ)))
    (bound_function_dict : List (ℕ × (ℚ → ℚ → ℚ)))
    (cell_type : String) : Except PyErr Fespace :=
  if cell_type = "triangle" then
    Except.error (PyErr.valueError "Triangle Mesh is not supported yet")
  else
    match generate_dirichlet_boundary_data bound_function_dict boundary_points with
    | Except.error e => Except.error e
    | Except.ok (x, y) =>
      Except.ok
        { n_cells := cells.length
          fe_cell := cells
          boundary_points := boundary_points
          bound_function_dict := bound_function_dict
          total_dofs := set_finite_elements_dof_count cells
          total_dirichlet_dofs := x.length
          dirichlet_x := x
          dirichlet_y := y }

/-! ## Guard and index-resolution lemmas -/

lemma boundsGuard_ok (n : ℕ) (c : ℤ) (h : c ≤ (n : ℤ)) :
    boundsGuard n c = Except.ok () := by
  rw [boundsGuard, if_neg (by omega)]

lemma boundsGuard_err (n : ℕ) (c : ℤ) (h : (n : ℤ) < c) :
    boundsGuard n c
      = Except.error (PyErr.valueError ("cell_index should be less than " ++ toString n)) := by
  rw [boundsGuard, if_pos (by omega)]

lemma pyResolveIndex_nonneg (len : ℕ) (c : ℤ) (h1 : 0 ≤ c) (h2 : c < (len : ℤ)) :
    pyResolveIndex len c = Except.ok c.toNat := by
  rw [pyResolveIndex, if_pos h1, if_pos h2]

lemma pyResolveIndex_neg (len : ℕ) (c : ℤ) (h1 : c < 0) (h2 : 0 ≤ c + (len : ℤ)) :
    pyResolveIndex len c = Except.ok (c + (len : ℤ)).toNat := by
  rw [pyResolveIndex, if_neg (by omega), if_pos h2]

lemma pyListGet_resolved {α : Type} (l : List α) (dflt : α) (c : ℤ) (k : ℕ)
    (h : pyResolveIndex l.length c = Except.ok k) :
    pyListGet l dflt c = Except.ok (l.getD k dflt) := by
  rw [pyListGet, h]

/-! ## List helper lemmas -/

lemma getD_of_getElem? {α : Type} (l : List α) (d : α) (k : ℕ) (a : α)
    (h : l[k]? = some a) : l.getD k d = a := by
  rw [List.getD_eq_getElem?_getD, h]; rfl

lemma foldl_add_sum {α M : Type} [AddCommMonoid M] (g : α → M) :
    ∀ (l : List α) (init : M),
      l.foldl (fun a x => a + g x) init = init + (l.map g).sum
  | [], init => by simp
  | x :: l, init => by
    simp only [List.foldl_cons, List.map_cons, List.sum_cons]
    rw [foldl_add_sum g l (init + g x), add_assoc]

lemma zipWith_mul_getD :
    ∀ (a b : List ℚ) (p : ℕ), p < a.length → p < b.length →
      (List.zipWith (fun x y => x * y) a b).getD p 0 = a.getD p 0 * b.getD p 0
  | [], _, p, ha, _ => absurd ha (by simp)
  | _ :: _, [], p, _, hb => absurd hb (by simp)
  | _ :: _, _ :: _, 0, _, _ => rfl
  | x :: xs, y :: ys, p + 1, ha, hb => by
    simpa using zipWith_mul_getD xs ys p (by simpa using ha) (by simpa using hb)

lemma map_getD_of_lt {α β : Type} (x : List α) (f : α → β) (p : ℕ) (d : α) (e : β)
    (hp : p < x.length) : (x.map f).getD p e = f (x.getD p d) := by
  have h1 : x[p]? = some x[p] := List.getElem?_eq_getElem hp
  have h2 : (x.map f)[p]? = some (f x[p]) := by
    rw [List.getElem?_map, h1]; rfl
  rw [getD_of_getElem? _ _ _ _ h2, getD_of_getElem? _ _ _ _ h1]

lemma range_map_getD {α : Type} (n m : ℕ) (f : ℕ → α) (d : α) (hm : m < n) :
    ((List.range n).map f).getD m d = f m := by
  apply getD_of_getElem?
  rw [List.getElem?_map, List.getElem?_range hm]; rfl

/-! ## Claim C6: the 1D spectral test functions -/

/-- Claim C6: for every index `k` with `1 ≤ k ≤ n` and every evaluation
point, the 1D test function computed by `test_fcnx` (row `k-1`) equals
`P_{k+1}(x)/P_{k+1}(1) - P_{k-1}(x)/P_{k-1}(1)` with `P_m` the Jacobi
polynomial with parameters `a = b = -1/2` normalized at the endpoint
`x = 1`, and `test_fcny` computes exactly the same on its argument. -/
theorem claim_C6_test_functions (n_test : ℕ) (x y : List ℚ) (k p : ℕ)
    (hk1 : 1 ≤ k) (hk2 : k ≤ n_test) (hpx : p < x.length) (hpy : p < y.length) :
    ((Basis2DQNChebyshev2.test_fcnx n_test x).getD (k - 1) []).getD p 0
      = jacobiP (-1/2) (-1/2) (k + 1) (x.getD p 0) / jacobiP (-1/2) (-1/2) (k + 1) 1
        - jacobiP (-1/2) (-1/2) (k - 1) (x.getD p 0) / jacobiP (-1/2) (-1/2) (k - 1) 1
  ∧ ((Basis2DQNChebyshev2.test_fcny n_test y).getD (k - 1) []).getD p 0
      = jacobiP (-1/2) (-1/2) (k + 1) (y.getD p 0) / jacobiP (-1/2) (-1/2) (k + 1) 1
        - jacobiP (-1/2) (-1/2) (k - 1) (y.getD p 0) / jacobiP (-1/2) (-1/2) (k - 1) 1 := by
  have hm : k - 1 < n_test := by omega
  have hdeg : k - 1 + 2 = k + 1 := by omega
  constructor
  · rw [Basis2DQNChebyshev2.test_fcnx, range_map_getD _ _ _ _ hm]
    have := map_getD_of_lt x
      (fun xp => Basis2DQNChebyshev2.jacobi_wrapper (k - 1 + 2) (-1/2) (-1/2) xp
          / Basis2DQNChebyshev2.jacobi_wrapper (k - 1 + 2) (-1/2) (-1/2) 1
        - Basis2DQNChebyshev2.jacobi_wrapper (k - 1) (-1/2) (-1/2) xp
          / Basis2DQNChebyshev2.jacobi_wrapper (k - 1) (-1/2) (-1/2) 1) p 0 0 hpx
    simp only [Basis2DQNChebyshev2.jacobi_wrapper, hdeg] at this ⊢
    rw [this]
  · rw [Basis2DQNChebyshev2.test_fcny, range_map_getD _ _ _ _ hm]
    have := map_getD_of_lt y
      (fun yp => Basis2DQNChebyshev2.jacobi_wrapper (k - 1 + 2) (-1/2) (-1/2) yp
          / Basis2DQNChebyshev2.jacobi_wrapper (k - 1 + 2) (-1/2) (-1/2) 1
        - Basis2DQNChebyshev2.jacobi_wrapper (k - 1) (-1/2) (-1/2) yp
          / Basis2DQNChebyshev2.jacobi_wrapper (k - 1) (-1/2) (-1/2) 1) p 0 0 hpy
    simp only [Basis2DQNChebyshev2.jacobi_wrapper, hdeg] at this ⊢
    rw [this]

/-- Witness for C6 at `n_test = 2`, `k = 1`, `x = y = [1/2]`, `p = 0`. -/
theorem claim_C6_witness :
    (1 ≤ 1 ∧ 1 ≤ 2 ∧ 0 < ([(1 : ℚ)/2]).length)
  ∧ ((Basis2DQNChebyshev2.test_fcnx 2 [(1 : ℚ)/2]).getD 0 []).getD 0 0
      = jacobiP (-1/2) (-1/2) 2 ((1 : ℚ)/2) / jacobiP (-1/2) (-1/2) 2 1
        - jacobiP (-1/2) (-1/2) 0 ((1 : ℚ)/2) / jacobiP (-1/2) (-1/2) 0 1 :=
  ⟨⟨le_refl 1, by omega, by simp⟩,
    (claim_C6_test_functions 2 [(1 : ℚ)/2] [(1 : ℚ)/2] 1 0 (le_refl 1) (by omega)
      (by simp) (by simp)).1⟩

/-! ## Claim C7: branch structure of the second derivative -/

/-- Claim C7: the second-derivative rows of `dtest_fcn` have exactly three
branches by index `k`: for `k = 1` and `k = 2` the row is
`((k+2)(k+1)/4) * P^{(3/2,3/2)}_{k-1}(x) / P^{(-1/2,-1/2)}_{k+1}(1)` with
no subtraction term, and for `k ≥ 3` it additionally subtracts
`(k(k-1)/4) * P^{(3/2,3/2)}_{k-3}(x) / P^{(-1/2,-1/2)}_{k-1}(1)`.  All
polynomial degrees appearing (`k-1`, `k+1`, `k-3` in the `k ≥ 3` branch)
are natural numbers; the only degree-zero boundary case is `P_{k-1} = P_0`
at `k = 1`. -/
theorem claim_C7_d2_branches (n_test : ℕ) (x : List ℚ) (k p : ℕ)
    (hk1 : 1 ≤ k) (hk2 : k ≤ n_test) (hp : p < x.length) :
    (k ≤ 2 →
      (((Basis2DQNChebyshev2.dtest_fcn n_test x).2.getD (k - 1) []).getD p 0
        = (((k : ℚ) + 2) * ((k : ℚ) + 1) / 4) * jacobiP (3/2) (3/2) (k - 1) (x.getD p 0)
            / jacobiP (-1/2) (-1/2) (k + 1) 1))
  ∧ (3 ≤ k →
      (((Basis2DQNChebyshev2.dtest_fcn n_test x).2.getD (k - 1) []).getD p 0
        = (((k : ℚ) + 2) * ((k : ℚ) + 1) / 4) * jacobiP (3/2) (3/2) (k - 1) (x.getD p 0)
            / jacobiP (-1/2) (-1/2) (k + 1) 1
          - ((k : ℚ) * ((k : ℚ) - 1) / 4) * jacobiP (3/2) (3/2) (k - 3) (x.getD p 0)
            / jacobiP (-1/2) (-1/2) (k - 1) 1)) := by
  have hm : k - 1 < n_test := by omega
  have hrow : (Basis2DQNChebyshev2.dtest_fcn n_test x).2.getD (k - 1) []
      = Basis2DQNChebyshev2.d2test_row (k - 1 + 1) x := by
    rw [Basis2DQNChebyshev2.dtest_fcn]
    exact range_map_getD _ _ _ _ hm
  have hk : k - 1 + 1 = k := by omega
  rw [hk] at hrow
  have h4 : ((2 : ℚ) * 2) = 4 := by norm_num
  constructor
  · intro hle
    rcases Nat.lt_or_ge k 2 with h | h
    · have hk1' : k = 1 := by omega
      subst hk1'
      rw [hrow, Basis2DQNChebyshev2.d2test_row, if_pos rfl]
      rw [map_getD_of_lt _ _ _ 0 _ hp]
      simp only [Basis2DQNChebyshev2.jacobi_wrapper, h4]
    · have hk2' : k = 2 := by omega
      subst hk2'
      rw [hrow, Basis2DQNChebyshev2.d2test_row, if_neg (by norm_num), if_pos rfl]
      rw [map_getD_of_lt _ _ _ 0 _ hp]
      simp only [Basis2DQNChebyshev2.jacobi_wrapper, h4]
  · intro hge
    rw [hrow, Basis2DQNChebyshev2.d2test_row, if_neg (by omega), if_neg (by omega)]
    rw [map_getD_of_lt _ _ _ 0 _ hp]
    simp only [Basis2DQNChebyshev2.jacobi_wrapper, h4]

/-- Witness for C7 at `n_test = 3`, `x = [1/2]`, `p = 0`, instantiated at
`k = 2` (no-subtraction branch) and `k = 3` (subtraction branch). -/
theorem claim_C7_witness :
    (((Basis2DQNChebyshev2.dtest_fcn 3 [(1 : ℚ)/2]).2.getD 1 []).getD 0 0
      = (((2 : ℚ) + 2) * ((2 : ℚ) + 1) / 4) * jacobiP (3/2) (3/2) 1 ((1 : ℚ)/2)
          / jacobiP (-1/2) (-1/2) 3 1)
  ∧ (((Basis2DQNChebyshev2.dtest_fcn 3 [(1 : ℚ)/2]).2.getD 2 []).getD 0 0
      = (((3 : ℚ) + 2) * ((3 : ℚ) + 1) / 4) * jacobiP (3/2) (3/2) 2 ((1 : ℚ)/2)
          / jacobiP (-1/2) (-1/2) 4 1
        - ((3 : ℚ) * ((3 : ℚ) - 1) / 4) * jacobiP (3/2) (3/2) 0 ((1 : ℚ)/2)
          / jacobiP (-1/2) (-1/2) 2 1) :=
  ⟨by
    have h := (claim_C7_d2_branches 3 [(1 : ℚ)/2] 2 0 (by omega) (by omega)
      (by simp)).1 (by omega)
    simpa using h,
   by
    have h := (claim_C7_d2_branches 3 [(1 : ℚ)/2] 3 0 (by omega) (by omega)
      (by simp)).2 (by omega)
    simpa using h⟩

/-! ## Lemmas on the block assembly loop -/

namespace Basis2DQNChebyshev2

lemma broadcastMul_length (row : List ℚ) (m : List (List ℚ)) :
    (broadcastMul row m).length = m.length := by
  simp [broadcastMul]

lemma sliceAssign_length (vals block : List (List ℚ)) (start : ℕ)
    (h : start + block.length ≤ vals.length) :
    (sliceAssign vals start block).length = vals.length := by
  simp only [sliceAssign, List.length_append, List.length_take, List.length_drop]
  omega

lemma append3_getElem?_left {α : Type} (l1 l2 l3 : List α) (r : ℕ)
    (h : r < l1.length) : (l1 ++ l2 ++ l3)[r]? = l1[r]? := by
  rw [List.getElem?_append, if_pos (by rw [List.length_append]; omega),
    List.getElem?_append, if_pos h]

lemma append3_getElem?_mid {α : Type} (l1 l2 l3 : List α) (r : ℕ)
    (h1 : l1.length ≤ r) (h2 : r < l1.length + l2.length) :
    (l1 ++ l2 ++ l3)[r]? = l2[r - l1.length]? := by
  rw [List.getElem?_append, if_pos (by rw [List.length_append]; omega),
    List.getElem?_append, if_neg (by omega)]

lemma append3_getElem?_right {α : Type} (l1 l2 l3 : List α) (r : ℕ)
    (h : l1.length + l2.length ≤ r) :
    (l1 ++ l2 ++ l3)[r]? = l3[r - l1.length - l2.length]? := by
  rw [List.getElem?_append, if_neg (by rw [List.length_append]; omega),
    List.length_append]
  congr 1
  omega

lemma sliceAssign_getElem?_lt (vals block : List (List ℚ)) (start r : ℕ)
    (hr : r < start) (hs : start ≤ vals.length) :
    (sliceAssign vals start block)[r]? = vals[r]? := by
  rw [sliceAssign, append3_getElem?_left _ _ _ _ (by rw [List.length_take]; omega),
    List.getElem?_take, if_pos hr]

lemma sliceAssign_getElem?_mid (vals block : List (List ℚ)) (start r : ℕ)
    (h1 : start ≤ r) (h2 : r < start + block.length) (hs : start ≤ vals.length) :
    (sliceAssign vals start block)[r]? = block[r - start]? := by
  have htl : (vals.take start).length = start := by rw [List.length_take]; omega
  rw [sliceAssign, append3_getElem?_mid _ _ _ _ (by omega) (by rw [htl]; omega), htl]

lemma sliceAssign_getElem?_ge (vals block : List (List ℚ)) (start r : ℕ)
    (h : start + block.length ≤ r) (hs : start ≤ vals.length) :
    (sliceAssign vals start block)[r]? = vals[r]? := by
  have htl : (vals.take start).length = start := by rw [List.length_take]; omega
  rw [sliceAssign, append3_getElem?_right _ _ _ _ (by rw [htl]; omega), htl,
    List.getElem?_drop]
  congr 1
  omega

/-- One step of the assembly loop, as folded over the cell-row indices. -/
def blockStep (n : ℕ) (tx ty : List (List ℚ)) (vals : List (List ℚ)) (i : ℕ) :
    List (List ℚ) :=
  sliceAssign vals (n * i) (broadcastMul (tx.getD i []) ty)

lemma blockLoop_eq_foldl (n : ℕ) (tx ty init : List (List ℚ)) :
    blockLoop n tx ty init = (List.range n).foldl (blockStep n tx ty) init := rfl

lemma blockFold_length (n : ℕ) (tx ty : List (List ℚ)) :
    ∀ (il : List ℕ) (vals : List (List ℚ)),
      (∀ i ∈ il, n * i + ty.length ≤ vals.length) →
      ((il.foldl (blockStep n tx ty) vals).length = vals.length)
  | [], _, _ => rfl
  | a :: rest, vals, h => by
    have ha := h a (List.mem_cons_self a rest)
    have hlen : (blockStep n tx ty vals a).length = vals.length := by
      rw [blockStep]
      exact sliceAssign_length _ _ _ (by rw [broadcastMul_length]; exact ha)
    rw [List.foldl_cons,
      blockFold_length n tx ty rest _ (fun i hi => by
        rw [hlen]; exact h i (List.mem_cons_of_mem a hi)), hlen]

lemma blockFold_getElem?_untouched (n : ℕ) (tx ty : List (List ℚ)) :
    ∀ (il : List ℕ) (vals : List (List ℚ)) (r : ℕ),
      (∀ i ∈ il, n * i + ty.length ≤ vals.length ∧ (r < n * i ∨ n * i + ty.length ≤ r)) →
      (il.foldl (blockStep n tx ty) vals)[r]? = vals[r]?
  | [], _, _, _ => rfl
  | a :: rest, vals, r, h => by
    obtain ⟨hlen, hdisj⟩ := h a (List.mem_cons_self a rest)
    have hblen : (broadcastMul (tx.getD a []) ty).length = ty.length :=
      broadcastMul_length _ _
    have hstep_len : (blockStep n tx ty vals a).length = vals.length := by
      rw [blockStep]
      exact sliceAssign_length _ _ _ (by rw [hblen]; exact hlen)
    have hstep : (blockStep n tx ty vals a)[r]? = vals[r]? := by
      rw [blockStep]
      rcases hdisj with hlt | hge
      · exact sliceAssign_getElem?_lt _ _ _ _ hlt (by omega)
      · exact sliceAssign_getElem?_ge _ _ _ _ (by rw [hblen]; omega) (by omega)
    rw [List.foldl_cons,
      blockFold_getElem?_untouched n tx ty rest _ r (fun i hi => by
        rw [hstep_len]; exact h i (List.mem_cons_of_mem a hi)), hstep]

lemma mul_succ_le {n k i : ℕ} (h : k < i) : n * k + n ≤ n * i := by
  have := Nat.mul_le_mul_left n (by omega : k + 1 ≤ i)
  rw [Nat.mul_add, Nat.mul_one] at this
  exact this

lemma blockFold_getElem?_hit (n : ℕ) (tx ty : List (List ℚ)) (hLn : ty.length ≤ n) :
    ∀ (il : List ℕ) (vals : List (List ℚ)) (i j : ℕ),
      il.Nodup → i ∈ il →
      (∀ k ∈ il, n * k + ty.length ≤ vals.length) → j < ty.length →
      (il.foldl (blockStep n tx ty) vals)[n * i + j]?
        = (broadcastMul (tx.getD i []) ty)[j]?
  | [], _, _, _, _, hmem, _, _ => absurd hmem (List.not_mem_nil _)
  | a :: rest, vals, i, j, hnd, hmem, hbound, hj => by
    have hnd' := List.nodup_cons.mp hnd
    have hblen : (broadcastMul (tx.getD i []) ty).length = ty.length :=
      broadcastMul_length _ _
    have hstep_len : ∀ k, k ∈ a :: rest →
        (blockStep n tx ty vals a).length = vals.length := fun _ _ => by
      rw [blockStep]
      refine sliceAssign_length _ _ _ ?_
      rw [broadcastMul_length]
      exact hbound a (List.mem_cons_self a rest)
    have hsl : (blockStep n tx ty vals a).length = vals.length :=
      hstep_len a (List.mem_cons_self a rest)
    rcases List.mem_cons.mp hmem with heq | hrest
    · subst heq
      have hmid : (blockStep n tx ty vals i)[n * i + j]?
          = (broadcastMul (tx.getD i []) ty)[j]? := by
        rw [blockStep]
        have := sliceAssign_getElem?_mid vals (broadcastMul (tx.getD i []) ty)
          (n * i) (n * i + j) (by omega) (by rw [hblen]; omega)
          (by have := hbound i (List.mem_cons_self i rest); omega)
        rwa [Nat.add_sub_cancel_left] at this
      rw [List.foldl_cons,
        blockFold_getElem?_untouched n tx ty rest _ (n * i + j) (fun k hk => by
          constructor
          · rw [hsl]; exact hbound k (List.mem_cons_of_mem i hk)
          · have hki : k ≠ i := fun hc => hnd'.1 (hc ▸ hk)
            rcases Nat.lt_or_ge k i with hlt | hge
            · right
              have := mul_succ_le (n := n) hlt
              omega
            · left
              have hik : i < k := by omega
              have := mul_succ_le (n := n) hik
              omega),
        hmid]
    · rw [List.foldl_cons]
      exact blockFold_getElem?_hit n tx ty hLn rest _ i j hnd'.2 hrest
        (fun k hk => by rw [hsl]; exact hbound k (List.mem_cons_of_mem a hk)) hj

/-- Entry formula for the assembly loop started on the zero matrix:
row `n*i+j` of the result is the elementwise product of row `i` of `tx`
with row `j` of `ty`. -/
lemma blockLoop_entry (n N P : ℕ) (tx ty : List (List ℚ)) (i j p : ℕ)
    (hi : i < n) (hj : j < n) (hty : ty.length = n) (hN : n * n ≤ N)
    (hp1 : p < (tx.getD i []).length) (hp2 : p < (ty.getD j []).length) :
    ((blockLoop n tx ty (List.replicate N (List.replicate P 0))).getD (n * i + j) []).getD p 0
      = (tx.getD i []).getD p 0 * (ty.getD j []).getD p 0 := by
  rw [blockLoop_eq_foldl]
  have hbound : ∀ k ∈ List.range n,
      n * k + ty.length ≤ (List.replicate N (List.replicate P (0 : ℚ))).length := by
    intro k hk
    rw [List.length_replicate, hty]
    have hkn : k < n := List.mem_range.mp hk
    have := mul_succ_le (n := n) hkn
    omega
  have hhit := blockFold_getElem?_hit n tx ty (by omega) (List.range n)
    (List.replicate N (List.replicate P 0)) i j (List.nodup_range n)
    (List.mem_range.mpr hi) hbound (by omega)
  have hjlen : j < ty.length := by omega
  have hrow : (broadcastMul (tx.getD i []) ty)[j]?
      = some (List.zipWith (fun a b => a * b) (tx.getD i []) (ty.getD j [])) := by
    rw [broadcastMul, List.getElem?_map, List.getElem?_eq_getElem hjlen]
    have hgd : ty.getD j [] = ty[j] := List.getD_eq_getElem ty [] hjlen
    rw [hgd]
    rfl
  rw [getD_of_getElem? _ _ _ _ (hhit.trans hrow)]
  exact zipWith_mul_getD _ _ p hp1 hp2

/-- Rows at index `≥ n*n` are never written by the assembly loop. -/
lemma blockLoop_zero_row (n N P : ℕ) (tx ty : List (List ℚ)) (r : ℕ)
    (hty : ty.length ≤ n) (hN : n * n ≤ N) (hr1 : n * n ≤ r) (hr2 : r < N) :
    (blockLoop n tx ty (List.replicate N (List.replicate P 0))).getD r []
      = List.replicate P 0 := by
  rw [blockLoop_eq_foldl]
  have huntouched := blockFold_getElem?_untouched n tx ty (List.range n)
    (List.replicate N (List.replicate P 0)) r (fun i hi => by
      have hin : i < n := List.mem_range.mp hi
      constructor
      · rw [List.length_replicate]
        have := mul_succ_le (n := n) hin
        omega
      · right
        have := mul_succ_le (n := n) hin
        omega)
  rw [getD_of_getElem? _ _ _ _ (huntouched.trans (by
    rw [List.getElem?_replicate, if_pos hr2]))]

/-- Length of the assembly loop result. -/
lemma blockLoop_length (n N P : ℕ) (tx ty : List (List ℚ))
    (hty : ty.length ≤ n) (hN : n * n ≤ N) :
    (blockLoop n tx ty (List.replicate N (List.replicate P 0))).length = N := by
  rw [blockLoop_eq_foldl, blockFold_length n tx ty (List.range n) _ (fun i hi => by
    have hin : i < n := List.mem_range.mp hi
    rw [List.length_replicate]
    have := mul_succ_le (n := n) hin
    omega), List.length_replicate]

/-! ## Row access and length lemmas for the basis matrices -/

lemma test_fcnx_getD (n_test : ℕ) (x : List ℚ) (m : ℕ) (hm : m < n_test) :
    (test_fcnx n_test x).getD m []
      = x.map (fun xp =>
          jacobi_wrapper (m + 2) (-1/2) (-1/2) xp / jacobi_wrapper (m + 2) (-1/2) (-1/2) 1
            - jacobi_wrapper m (-1/2) (-1/2) xp / jacobi_wrapper m (-1/2) (-1/2) 1) := by
  rw [test_fcnx]
  exact FastVPinns.range_map_getD _ _ _ _ hm

lemma test_fcny_getD (n_test : ℕ) (y : List ℚ) (m : ℕ) (hm : m < n_test) :
    (test_fcny n_test y).getD m []
      = y.map (fun yp =>
          jacobi_wrapper (m + 2) (-1/2) (-1/2) yp / jacobi_wrapper (m + 2) (-1/2) (-1/2) 1
            - jacobi_wrapper m (-1/2) (-1/2) yp / jacobi_wrapper m (-1/2) (-1/2) 1) := by
  rw [test_fcny]
  exact FastVPinns.range_map_getD _ _ _ _ hm

lemma dtest1_getD (n_test : ℕ) (x : List ℚ) (m : ℕ) (hm : m < n_test) :
    (dtest_fcn n_test x).1.getD m [] = d1test_row (m + 1) x := by
  rw [dtest_fcn]
  exact FastVPinns.range_map_getD _ _ _ _ hm

lemma dtest2_getD (n_test : ℕ) (x : List ℚ) (m : ℕ) (hm : m < n_test) :
    (dtest_fcn n_test x).2.getD m [] = d2test_row (m + 1) x := by
  rw [dtest_fcn]
  exact FastVPinns.range_map_getD _ _ _ _ hm

lemma d1test_row_length (n : ℕ) (x : List ℚ) : (d1test_row n x).length = x.length := by
  rw [d1test_row]
  split
  · exact List.length_map x _
  · split
    · exact List.length_map x _
    · exact List.length_map x _

lemma d2test_row_length (n : ℕ) (x : List ℚ) : (d2test_row n x).length = x.length := by
  rw [d2test_row]
  split
  · exact List.length_map x _
  · split
    · exact List.length_map x _
    · exact List.length_map x _

lemma test_fcnx_row_length (n_test : ℕ) (x : List ℚ) (m : ℕ) (hm : m < n_test) :
    ((test_fcnx n_test x).getD m []).length = x.length := by
  rw [test_fcnx_getD _ _ _ hm]
  exact List.length_map x _

lemma test_fcny_row_length (n_test : ℕ) (y : List ℚ) (m : ℕ) (hm : m < n_test) :
    ((test_fcny n_test y).getD m []).length = y.length := by
  rw [test_fcny_getD _ _ _ hm]
  exact List.length_map y _

lemma dtest1_row_length (n_test : ℕ) (x : List ℚ) (m : ℕ) (hm : m < n_test) :
    ((dtest_fcn n_test x).1.getD m []).length = x.length := by
  rw [dtest1_getD _ _ _ hm]
  exact d1test_row_length _ x

lemma dtest2_row_length (n_test : ℕ) (x : List ℚ) (m : ℕ) (hm : m < n_test) :
    ((dtest_fcn n_test x).2.getD m []).length = x.length := by
  rw [dtest2_getD _ _ _ hm]
  exact d2test_row_length _ x

lemma test_fcny_length (n_test : ℕ) (y : List ℚ) : (test_fcny n_test y).length = n_test := by
  rw [test_fcny, List.length_map, List.length_range]

lemma dtest1_length (n_test : ℕ) (x : List ℚ) : (dtest_fcn n_test x).1.length = n_test := by
  rw [dtest_fcn, List.length_map, List.length_range]

lemma dtest2_length (n_test : ℕ) (x : List ℚ) : (dtest_fcn n_test x).2.length = n_test := by
  rw [dtest_fcn, List.length_map, List.length_range]

/-- Entry formula specialized to the zero-initialized matrix of a basis
method, with the row index written `i*n + j` as in the claim. -/
lemma tensor_entry_aux (n N P : ℕ) (tx ty : List (List ℚ)) (i j p : ℕ)
    (hi : i < n) (hj : j < n) (hty : ty.length = n) (hN : n * n ≤ N)
    (hp1 : p < (tx.getD i []).length) (hp2 : p < (ty.getD j []).length) :
    ((blockLoop n tx ty (List.replicate N (List.replicate P 0))).getD (i * n + j) []).getD p 0
      = (tx.getD i []).getD p 0 * (ty.getD j []).getD p 0 := by
  rw [Nat.mul_comm i n]
  exact blockLoop_entry n N P tx ty i j p hi hj hty hN hp1 hp2

/-! ## Claim C5: tensor-product block structure of the 2D basis -/

/-- Claim C5: for `N = n*n` and equal-length coordinate vectors, the basis
evaluator `value` satisfies `value[i*n+j, p] = test_x[i, p] * test_y[j, p]`
(row-major block assignment of the tensor product of the 1D families), and
each derivative method (`gradx`, `grady`, `gradxx`, `gradxy`, `gradyy`) is
the same block assignment with the corresponding 1D factor replaced by its
first or second derivative (`dtest_fcn(·)[0]` resp. `dtest_fcn(·)[1]`). -/
theorem claim_C5_tensor_product (n : ℕ) (xi eta : List ℚ) (i j p : ℕ)
    (hi : i < n) (hj : j < n) (hp : p < xi.length) (hlen : eta.length = xi.length) :
    ((value (n * n) xi eta).getD (i * n + j) []).getD p 0
      = ((test_fcnx n xi).getD i []).getD p 0 * ((test_fcny n eta).getD j []).getD p 0
  ∧ ((gradx (n * n) xi eta).getD (i * n + j) []).getD p 0
      = ((dtest_fcn n xi).1.getD i []).getD p 0 * ((test_fcny n eta).getD j []).getD p 0
  ∧ ((grady (n * n) xi eta).getD (i * n + j) []).getD p 0
      = ((test_fcnx n xi).getD i []).getD p 0 * ((dtest_fcn n eta).1.getD j []).getD p 0
  ∧ ((gradxx (n * n) xi eta).getD (i * n + j) []).getD p 0
      = ((dtest_fcn n xi).2.getD i []).getD p 0 * ((test_fcny n eta).getD j []).getD p 0
  ∧ ((gradxy (n * n) xi eta).getD (i * n + j) []).getD p 0
      = ((dtest_fcn n xi).1.getD i []).getD p 0 * ((dtest_fcn n eta).1.getD j []).getD p 0
  ∧ ((gradyy (n * n) xi eta).getD (i * n + j) []).getD p 0
      = ((test_fcnx n xi).getD i []).getD p 0 * ((dtest_fcn n eta).2.getD j []).getD p 0 := by
  have hNeq : Nat.sqrt (n * n) = n := Nat.sqrt_eq n
  have hpx : p < ((test_fcnx n xi).getD i []).length := by
    rw [test_fcnx_row_length n xi i hi]; exact hp
  have hpy : p < ((test_fcny n eta).getD j []).length := by
    rw [test_fcny_row_length n eta j hj, hlen]; exact hp
  have hpd1x : p < ((dtest_fcn n xi).1.getD i []).length := by
    rw [dtest1_row_length n xi i hi]; exact hp
  have hpd2x : p < ((dtest_fcn n xi).2.getD i []).length := by
    rw [dtest2_row_length n xi i hi]; exact hp
  have hpd1y : p < ((dtest_fcn n eta).1.getD j []).length := by
    rw [dtest1_row_length n eta j hj, hlen]; exact hp
  have hpd2y : p < ((dtest_fcn n eta).2.getD j []).length := by
    rw [dtest2_row_length n eta j hj, hlen]; exact hp
  refine ⟨?_, ?_, ?_, ?_, ?_, ?_⟩
  · rw [value, hNeq]
    exact tensor_entry_aux n (n * n) xi.length _ _ i j p hi hj
      (test_fcny_length n eta) (le_refl _) hpx hpy
  · rw [gradx, hNeq]
    exact tensor_entry_aux n (n * n) xi.length _ _ i j p hi hj
      (test_fcny_length n eta) (le_refl _) hpd1x hpy
  · rw [grady, hNeq]
    exact tensor_entry_aux n (n * n) xi.length _ _ i j p hi hj
      (dtest1_length n eta) (le_refl _) hpx hpd1y
  · rw [gradxx, hNeq]
    exact tensor_entry_aux n (n * n) xi.length _ _ i j p hi hj
      (test_fcny_length n eta) (le_refl _) hpd2x hpy
  · rw [gradxy, hNeq]
    exact tensor_entry_aux n (n * n) xi.length _ _ i j p hi hj
      (dtest1_length n eta) (le_refl _) hpd1x hpd1y
  · rw [gradyy, hNeq]
    exact tensor_entry_aux n (n * n) xi.length _ _ i j p hi hj
      (dtest2_length n eta) (le_refl _) hpx hpd2y

/-- Witness for C5 at `n = 2`, `xi = [1/2]`, `eta = [1/3]`, `i = 1`,
`j = 0`, `p = 0`. -/
theorem claim_C5_witness :
    ((1 : ℕ) < 2 ∧ (0 : ℕ) < 2 ∧ (0 : ℕ) < ([(1 : ℚ)/2]).length
      ∧ ([(1 : ℚ)/3] : List ℚ).length = ([(1 : ℚ)/2]).length)
  ∧ (((value (2 * 2) [(1 : ℚ)/2] [(1 : ℚ)/3]).getD (1 * 2 + 0) []).getD 0 0
      = ((test_fcnx 2 [(1 : ℚ)/2]).getD 1 []).getD 0 0
        * ((test_fcny 2 [(1 : ℚ)/3]).getD 0 []).getD 0 0) :=
  ⟨⟨by omega, by omega, by simp, by simp⟩,
    (claim_C5_tensor_product 2 [(1 : ℚ)/2] [(1 : ℚ)/3] 1 0 0 (by omega) (by omega)
      (by simp) (by simp)).1⟩

/-! ## Claim C3: non-perfect-square shape-function counts -/

lemma sqrt_five : Nat.sqrt 5 = 2 := by
  have h1 : 2 ≤ Nat.sqrt 5 := Nat.le_sqrt.mpr (by norm_num)
  have h2 : Nat.sqrt 5 < 3 := Nat.sqrt_lt.mpr (by norm_num)
  omega

/-- Counterexample to claim C3: with `num_shape_functions = 5` (not a
perfect square) the basis evaluator raises no error at all.  At
`xi = eta = [1/2]` it returns a well-defined `5 × 1` matrix: the first
`floor(sqrt 5)^2 = 4` rows carry the tensor products of the truncated
`2 × 2` basis and the remaining row is left zero — exactly the silent
truncation the claim asserts cannot happen. -/
theorem claim_C3_counterexample :
    value 5 [(1 : ℚ)/2] [(1 : ℚ)/2] = [[9/4], [9/4], [9/4], [9/4], [0]] := by
  have htx : test_fcnx 2 [(1 : ℚ)/2] = [[-3/2], [-3/2]] := by
    have hr : List.range 2 = [0, 1] := rfl
    rw [test_fcnx, hr]
    norm_num [jacobi_wrapper, jacobiP, jacobiAux]
  have hty : test_fcny 2 [(1 : ℚ)/2] = [[-3/2], [-3/2]] := by
    have hr : List.range 2 = [0, 1] := rfl
    rw [test_fcny, hr]
    norm_num [jacobi_wrapper, jacobiP, jacobiAux]
  rw [value, sqrt_five, htx, hty]
  have hr : List.range 2 = [0, 1] := rfl
  rw [blockLoop, hr]
  norm_num [sliceAssign, broadcastMul, List.take, List.drop, List.replicate]

/-- Amended claim C3: for a shape-function count `N` that is not a perfect
square, no error is raised anywhere in the repository code; the basis
evaluator silently proceeds with `n = floor(sqrt N)`: it returns an
`N`-row matrix whose rows below `n*n` carry the tensor-product block
values of the truncated `n × n` basis and whose rows from `n*n` to `N-1`
remain identically zero. -/
theorem claim_C3_truncation (N : ℕ) (xi eta : List ℚ)
    (h : Nat.sqrt N * Nat.sqrt N < N) :
    (value N xi eta).length = N
  ∧ (∀ r, Nat.sqrt N * Nat.sqrt N ≤ r → r < N →
      (value N xi eta).getD r [] = List.replicate xi.length 0)
  ∧ (∀ i j p, i < Nat.sqrt N → j < Nat.sqrt N → p < xi.length →
      eta.length = xi.length →
      ((value N xi eta).getD (i * Nat.sqrt N + j) []).getD p 0
        = ((test_fcnx (Nat.sqrt N) xi).getD i []).getD p 0
          * ((test_fcny (Nat.sqrt N) eta).getD j []).getD p 0) := by
  have hNle : Nat.sqrt N * Nat.sqrt N ≤ N := le_of_lt h
  refine ⟨?_, ?_, ?_⟩
  · rw [value]
    exact blockLoop_length _ _ _ _ _ (by rw [test_fcny_length]) hNle
  · intro r hr1 hr2
    rw [value]
    exact blockLoop_zero_row _ _ _ _ _ r (by rw [test_fcny_length]) hNle hr1 hr2
  · intro i j p hi hj hp hlen
    rw [value]
    exact tensor_entry_aux _ _ _ _ _ i j p hi hj (test_fcny_length _ eta) hNle
      (by rw [test_fcnx_row_length _ xi i hi]; exact hp)
      (by rw [test_fcny_row_length _ eta j hj, hlen]; exact hp)

/-- Witness for (the amended) C3 at `N = 5`, `xi = eta = [1/2]`:
the hypothesis holds and the evaluator returns a 5-row matrix whose last
row is zero. -/
theorem claim_C3_witness :
    (Nat.sqrt 5 * Nat.sqrt 5 < 5)
  ∧ (value 5 [(1 : ℚ)/2] [(1 : ℚ)/2]).length = 5
  ∧ (value 5 [(1 : ℚ)/2] [(1 : ℚ)/2]).getD 4 []
      = List.replicate ([(1 : ℚ)/2]).length 0 :=
  ⟨by rw [sqrt_five]; omega,
    (claim_C3_truncation 5 [(1 : ℚ)/2] [(1 : ℚ)/2] (by rw [sqrt_five]; omega)).1,
    (claim_C3_truncation 5 [(1 : ℚ)/2] [(1 : ℚ)/2] (by rw [sqrt_five]; omega)).2.1 4
      (by rw [sqrt_five]) (by omega)⟩

end Basis2DQNChebyshev2

/-! ## Claim C10: negative cell indices slip through the accessor guard -/

/-- Claim C10: for every per-cell accessor and every negative cell index
`c` with `-n_cells ≤ c ≤ -1`, the call does not fail: the guard rejects
only indices strictly greater than `n_cells`, so the accessor returns the
per-cell arrays of cell `n_cells + c` (Python negative indexing) as if it
were a valid request. -/
theorem claim_C10_negative_indexing (sp : Fespace) (c : ℤ)
    (hwf : sp.fe_cell.length = sp.n_cells)
    (h1 : -(sp.n_cells : ℤ) ≤ c) (h2 : c ≤ -1) :
    sp.get_shape_function_val c
      = Except.ok ((sp.fe_cell.getD ((sp.n_cells : ℤ) + c).toNat dummyCell).basis_at_quad)
  ∧ sp.get_shape_function_grad_x c
      = Except.ok ((sp.fe_cell.getD ((sp.n_cells : ℤ) + c).toNat dummyCell).basis_gradx_at_quad)
  ∧ sp.get_quadrature_actual_coordinates c
      = Except.ok ((sp.fe_cell.getD ((sp.n_cells : ℤ) + c).toNat dummyCell).quad_actual_coordinates)
  ∧ sp.get_quadrature_weights c
      = Except.ok ((sp.fe_cell.getD ((sp.n_cells : ℤ) + c).toNat dummyCell).mult)
  ∧ (sp.get_forcing_function_values c).isOk = true := by
  have hg : boundsGuard sp.n_cells c = Except.ok () := boundsGuard_ok _ _ (by omega)
  have hres : pyResolveIndex sp.fe_cell.length c
      = Except.ok ((sp.n_cells : ℤ) + c).toNat := by
    rw [pyResolveIndex_neg _ _ (by omega) (by rw [hwf]; omega), hwf, Int.add_comm]
  have hlg : pyListGet sp.fe_cell dummyCell c
      = Except.ok (sp.fe_cell.getD ((sp.n_cells : ℤ) + c).toNat dummyCell) :=
    pyListGet_resolved _ _ _ _ hres
  refine ⟨?_, ?_, ?_, ?_, ?_⟩
  · rw [Fespace.get_shape_function_val, hg, hlg]
  · rw [Fespace.get_shape_function_grad_x, hg, hlg]
  · rw [Fespace.get_quadrature_actual_coordinates, hg, hlg]
  · rw [Fespace.get_quadrature_weights, hg, hlg]
  · rw [Fespace.get_forcing_function_values, hg, hres]
    rfl

/-! ## Claim C1: the accessor bounds check -/

/-- A concrete two-cell space used to evaluate the accessor guard. -/
def spSample : Fespace :=
  { n_cells := 2
    fe_cell :=
      [ { basis_at_quad := [[1, 2]]
          basis_gradx_at_quad := [[3, 4]]
          quad_actual_coordinates := [[0, 0], [1, 1]]
          mult := [[1], [1]]
          forcing_at_quad := [[0]]
          num_shape_functions := 1
          forcing_function := fun x y => x + y },
        { basis_at_quad := [[5, 6]]
          basis_gradx_at_quad := [[7, 8]]
          quad_actual_coordinates := [[2, 2], [3, 3]]
          mult := [[1], [1]]
          forcing_at_quad := [[0]]
          num_shape_functions := 1
          forcing_function := fun x y => x + y } ]
    boundary_points := [(1000, [(0, 0)])]
    bound_function_dict := [(1000, fun x y => x + y)]
    total_dofs := 4
    total_dirichlet_dofs := 1
    dirichlet_x := [(0, 0)]
    dirichlet_y := [0] }

/-- Claim C1 evaluated on the code: on a two-cell space, the accessor
guard `if cell_index > self.n_cells` lets index `-1` through and the
accessor returns cell 1's data with no error at all, although `-1` is
outside `[0, n_cells)`; at index `n_cells = 2` the guard also passes and
only the raw list subscription raises a generic `IndexError` (not the
accessor's descriptive `ValueError`, whose own message says the index
"should be less than n_cells"); only indices strictly greater than
`n_cells` produce the descriptive bounds `ValueError`. -/
theorem claim_C1_bounds_eval :
    Fespace.get_shape_function_val spSample (-1) = Except.ok [[5, 6]]
  ∧ Fespace.get_shape_function_val spSample 2 = Except.error PyErr.indexError
  ∧ Fespace.get_shape_function_val spSample 3
      = Except.error (PyErr.valueError ("cell_index should be less than " ++ toString 2)) := by
  refine ⟨?_, ?_, ?_⟩ <;> rfl

/-! ## Claim C4: the scalar forcing-integral computation -/

/-- The claim's formula for the forcing integral of one cell: entry `i` is
`Σ_q basis_value[i, q] * forcing(quad_physical[q, 0], quad_physical[q, 1])`
with `q` ranging over the quadrature points (no extra weight or Jacobian
factor), as an `(n, 1)` column. -/
def forcingIntegralSpec (cell : CellRecord) : List (List ℚ) :=
  (List.range cell.num_shape_functions).map (fun i =>
    [((List.range ((cell.basis_at_quad.getD 0 []).length)).map (fun q =>
        (cell.basis_at_quad.getD i []).getD q 0
          * cell.forcing_function
              ((cell.quad_actual_coordinates.getD q []).getD 0 0)
              ((cell.quad_actual_coordinates.getD q []).getD 1 0))).sum])

/-- The state after the forcing computation on cell `ri`: that cell's
`forcing_at_quad` is overwritten with the freshly computed column; nothing
else changes. -/
def storeForcing (sp : Fespace) (ri : ℕ) : Fespace :=
  { sp with
    fe_cell := sp.fe_cell.set ri
      { sp.fe_cell.getD ri dummyCell with
        forcing_at_quad := forcingIntegralSpec (sp.fe_cell.getD ri dummyCell) } }

lemma f_integral_rows (cell : CellRecord) (i : ℕ) :
    (List.range ((cell.basis_at_quad.getD 0 []).length)).foldl
      (fun val q =>
        val + (cell.basis_at_quad.getD i []).getD q 0
            * cell.forcing_function
                ((cell.quad_actual_coordinates.getD q []).getD 0 0)
                ((cell.quad_actual_coordinates.getD q []).getD 1 0)) 0
    = ((List.range ((cell.basis_at_quad.getD 0 []).length)).map (fun q =>
        (cell.basis_at_quad.getD i []).getD q 0
          * cell.forcing_function
              ((cell.quad_actual_coordinates.getD q []).getD 0 0)
              ((cell.quad_actual_coordinates.getD q []).getD 1 0))).sum := by
  rw [foldl_add_sum (fun q =>
    (cell.basis_at_quad.getD i []).getD q 0
      * cell.forcing_function
          ((cell.quad_actual_coordinates.getD q []).getD 0 0)
          ((cell.quad_actual_coordinates.getD q []).getD 1 0)), zero_add]

lemma f_integral_eq (cell : CellRecord) :
    (List.range cell.num_shape_functions).map (fun i =>
      [(List.range ((cell.basis_at_quad.getD 0 []).length)).foldl
        (fun val q =>
          val + (cell.basis_at_quad.getD i []).getD q 0
              * cell.forcing_function
                  ((cell.quad_actual_coordinates.getD q []).getD 0 0)
                  ((cell.quad_actual_coordinates.getD q []).getD 1 0)) 0])
      = forcingIntegralSpec cell := by
  rw [forcingIntegralSpec]
  exact List.map_congr_left (fun i _ => by rw [f_integral_rows])

lemma forcingBody_eq (sp : Fespace) (ri : ℕ) :
    forcingBody sp ri
      = Except.ok (storeForcing sp ri,
          forcingIntegralSpec (sp.fe_cell.getD ri dummyCell)) :=
  congrArg (fun F =>
    (Except.ok
      ({ sp with
          fe_cell := sp.fe_cell.set ri
            { sp.fe_cell.getD ri dummyCell with forcing_at_quad := F } }, F)
      : Except PyErr (Fespace × List (List ℚ))))
    (f_integral_eq (sp.fe_cell.getD ri dummyCell))

/-- Claim C4: for every valid cell index, `get_forcing_function_values`
returns the column whose entry `i` is
`Σ_q basis_value[i, q] * forcing(quad_physical[q, 0], quad_physical[q, 1])`
(a plain quadrature sum with no extra weight or Jacobian factor), stores
that column as the cell's `forcing_at_quad`, overwriting the previous
value, and re-invoking it on the updated space yields the same column and
the same state (idempotent). -/
lemma fespace_eta (s : Fespace) (l : List CellRecord) (h : l = s.fe_cell) :
    { s with fe_cell := l } = s := by
  subst h
  cases s
  rfl

theorem claim_C4_forcing_integral (sp : Fespace) (c : ℤ)
    (hwf : sp.fe_cell.length = sp.n_cells)
    (hc0 : 0 ≤ c) (hcn : c < (sp.n_cells : ℤ)) :
    sp.get_forcing_function_values c
      = Except.ok (storeForcing sp c.toNat,
          forcingIntegralSpec (sp.fe_cell.getD c.toNat dummyCell))
  ∧ (storeForcing sp c.toNat).get_forcing_function_values c
      = Except.ok (storeForcing sp c.toNat,
          forcingIntegralSpec (sp.fe_cell.getD c.toNat dummyCell)) := by
  have hci : c.toNat < sp.fe_cell.length := by rw [hwf]; omega
  have hg : boundsGuard sp.n_cells c = Except.ok () := boundsGuard_ok _ _ (by omega)
  have hres : pyResolveIndex sp.fe_cell.length c = Except.ok c.toNat :=
    pyResolveIndex_nonneg _ _ hc0 (by rw [hwf]; exact hcn)
  have hcell2 : (storeForcing sp c.toNat).fe_cell.getD c.toNat dummyCell
      = { sp.fe_cell.getD c.toNat dummyCell with
          forcing_at_quad := forcingIntegralSpec (sp.fe_cell.getD c.toNat dummyCell) } := by
    apply getD_of_getElem?
    rw [storeForcing]
    exact List.getElem?_set_self hci
  have hspec2 : forcingIntegralSpec ((storeForcing sp c.toNat).fe_cell.getD c.toNat dummyCell)
      = forcingIntegralSpec (sp.fe_cell.getD c.toNat dummyCell) :=
    (congrArg forcingIntegralSpec hcell2).trans rfl
  constructor
  · rw [Fespace.get_forcing_function_values, hg, hres]
    exact forcingBody_eq sp c.toNat
  · have hn2 : (storeForcing sp c.toNat).n_cells = sp.n_cells := rfl
    have hg2 : boundsGuard (storeForcing sp c.toNat).n_cells c = Except.ok () :=
      boundsGuard_ok _ _ (by rw [hn2]; omega)
    have hlen2 : (storeForcing sp c.toNat).fe_cell.length = sp.fe_cell.length := by
      rw [storeForcing]
      exact List.length_set _ _ _
    have hres2 : pyResolveIndex (storeForcing sp c.toNat).fe_cell.length c
        = Except.ok c.toNat := by rw [hlen2]; exact hres
    rw [Fespace.get_forcing_function_values, hg2, hres2]
    have hb := forcingBody_eq (storeForcing sp c.toNat) c.toNat
    rw [hspec2] at hb
    have hcx : ({ (storeForcing sp c.toNat).fe_cell.getD c.toNat dummyCell with
          forcing_at_quad :=
            forcingIntegralSpec ((storeForcing sp c.toNat).fe_cell.getD c.toNat dummyCell) }
        : CellRecord)
        = { sp.fe_cell.getD c.toNat dummyCell with
            forcing_at_quad := forcingIntegralSpec (sp.fe_cell.getD c.toNat dummyCell) } := by
      rw [hcell2]
      exact rfl
    have hset : (storeForcing sp c.toNat).fe_cell.set c.toNat
        ({ (storeForcing sp c.toNat).fe_cell.getD c.toNat dummyCell with
            forcing_at_quad :=
              forcingIntegralSpec ((storeForcing sp c.toNat).fe_cell.getD c.toNat dummyCell) })
        = (storeForcing sp c.toNat).fe_cell := by
      rw [hcx]
      exact List.set_set _ _ _ _
    have hstore2 : storeForcing (storeForcing sp c.toNat) c.toNat
        = storeForcing sp c.toNat :=
      fespace_eta (storeForcing sp c.toNat) _ hset
    rw [hstore2] at hb
    exact hb

/-- Witness for C10 at the concrete two-cell space and `c = -2`: the
accessor returns cell 0's basis matrix. -/
theorem claim_C10_witness :
    (spSample.fe_cell.length = spSample.n_cells
      ∧ -((spSample.n_cells : ℤ)) ≤ -2 ∧ (-2 : ℤ) ≤ -1)
  ∧ Fespace.get_shape_function_val spSample (-2)
      = Except.ok
          ((spSample.fe_cell.getD ((spSample.n_cells : ℤ) + -2).toNat dummyCell).basis_at_quad) :=
  ⟨⟨rfl, by decide, by decide⟩,
    (claim_C10_negative_indexing spSample (-2) rfl (by decide) (by decide)).1⟩

/-- Witness for C4 at the concrete two-cell space and `c = 0`. -/
theorem claim_C4_witness :
    (spSample.fe_cell.length = spSample.n_cells
      ∧ (0 : ℤ) ≤ 0 ∧ (0 : ℤ) < (spSample.n_cells : ℤ))
  ∧ Fespace.get_forcing_function_values spSample 0
      = Except.ok (storeForcing spSample (0 : ℤ).toNat,
          forcingIntegralSpec (spSample.fe_cell.getD (0 : ℤ).toNat dummyCell)) :=
  ⟨⟨rfl, by decide, by decide⟩,
    (claim_C4_forcing_integral spSample 0 rfl (by decide) (by decide)).1⟩

/-! ## Claim C2: stacking the forcing integrals for training -/

/-- Claim C2: `get_forcing_data_for_training` returns a matrix of shape
`(per-cell forcing-column length × cell count)` whose column `j` is cell
`j`'s `forcing_at_quad` column. -/
theorem claim_C2_forcing_stack (sp : Fespace) (Q : ℕ)
    (hwf : sp.fe_cell.length = sp.n_cells) (hn : 1 ≤ sp.n_cells)
    (hQ : ∀ j, j < sp.n_cells →
      ((sp.fe_cell.getD j dummyCell).forcing_at_quad).length = Q) :
    (sp.get_forcing_data_for_training).length = Q
  ∧ (∀ row, row ∈ sp.get_forcing_data_for_training → row.length = sp.n_cells)
  ∧ (∀ i j, i < Q → j < sp.n_cells →
      ((sp.get_forcing_data_for_training).getD i []).getD j 0
        = (((sp.fe_cell.getD j dummyCell).forcing_at_quad).getD i []).getD 0 0) := by
  have hmd : ∀ j, j < sp.n_cells →
      (((List.range sp.n_cells).map
        (fun i => (sp.fe_cell.getD i dummyCell).forcing_at_quad)).getD j [])
        = (sp.fe_cell.getD j dummyCell).forcing_at_quad :=
    fun j hj => range_map_getD _ _ _ _ hj
  have hL : (((List.range sp.n_cells).map
      (fun i => (sp.fe_cell.getD i dummyCell).forcing_at_quad)).getD 0 []).length = Q := by
    rw [hmd 0 (by omega)]
    exact hQ 0 (by omega)
  have hunf : sp.get_forcing_data_for_training
      = (List.range ((((List.range sp.n_cells).map
            (fun i => (sp.fe_cell.getD i dummyCell).forcing_at_quad)).getD 0 []).length)).map
          (fun i => (List.range sp.n_cells).map (fun j =>
            ((((List.range sp.n_cells).map
                (fun i2 => (sp.fe_cell.getD i2 dummyCell).forcing_at_quad)).getD j []).getD i
              []).getD 0 0)) := rfl
  rw [hunf, hL]
  refine ⟨by rw [List.length_map, List.length_range], ?_, ?_⟩
  · intro row hrow
    obtain ⟨i, _, hrow2⟩ := List.mem_map.mp hrow
    rw [← hrow2, List.length_map, List.length_range]
  · intro i j hi hj
    rw [range_map_getD _ _ _ _ hi, range_map_getD _ _ _ _ hj, hmd j hj]

/-- Witness for C2 at the concrete two-cell space (each cell's
`forcing_at_quad` is a `1 × 1` column). -/
theorem claim_C2_witness :
    (spSample.fe_cell.length = spSample.n_cells ∧ 1 ≤ spSample.n_cells
      ∧ ∀ j, j < spSample.n_cells →
          ((spSample.fe_cell.getD j dummyCell).forcing_at_quad).length = 1)
  ∧ (spSample.get_forcing_data_for_training).length = 1 :=
  ⟨⟨rfl, by decide, by decide⟩,
    (claim_C2_forcing_stack spSample 1 rfl (by decide) (by decide)).1⟩

/-! ## Claim C8: the derived dof totals -/

lemma set_finite_elements_dof_count_eq (cells : List CellRecord) :
    set_finite_elements_dof_count cells
      = (cells.map (fun c => (c.basis_at_quad.getD 0 []).length)).sum := by
  have h := foldl_add_sum (fun c : CellRecord => (c.basis_at_quad.getD 0 []).length) cells 0
  rw [zero_add] at h
  exact h

lemma dirichletPts_length (dict : List (ℕ × (ℚ → ℚ → ℚ))) (tag : ℕ) :
    ∀ (pts : List (ℚ × ℚ)) (xs : List (ℚ × ℚ)) (ys : List ℚ),
      dirichletPts dict tag pts = Except.ok (xs, ys) → xs.length = pts.length
  | [], xs, ys, h => by
    rw [dirichletPts] at h
    injection h with h2
    rw [Prod.mk.injEq] at h2
    rw [← h2.1]
  | pt :: rest, xs, ys, h => by
    rw [dirichletPts] at h
    cases hlk : List.lookup tag dict with
    | none => rw [hlk] at h; exact absurd h (by simp)
    | some f =>
      rw [hlk] at h
      cases hrec : dirichletPts dict tag rest with
      | error e => rw [hrec] at h; exact absurd h (by simp)
      | ok pr =>
        rw [hrec] at h
        injection h with h2
        rw [Prod.mk.injEq] at h2
        rw [← h2.1, List.length_cons,
          dirichletPts_length dict tag rest pr.1 pr.2 (by rw [hrec]), List.length_cons]

lemma generate_dirichlet_length (dict : List (ℕ × (ℚ → ℚ → ℚ))) :
    ∀ (bps : List (ℕ × List (ℚ × ℚ))) (xs : List (ℚ × ℚ)) (ys : List ℚ),
      generate_dirichlet_boundary_data dict bps = Except.ok (xs, ys) →
      xs.length = (bps.map (fun tp => tp.2.length)).sum
  | [], xs, ys, h => by
    rw [generate_dirichlet_boundary_data] at h
    injection h with h2
    rw [Prod.mk.injEq] at h2
    rw [← h2.1]
    rfl
  | (tag, pts) :: rest, xs, ys, h => by
    rw [generate_dirichlet_boundary_data] at h
    cases hdp : dirichletPts dict tag pts with
    | error e => rw [hdp] at h; exact absurd h (by simp)
    | ok pr1 =>
      rw [hdp] at h
      cases hgen : generate_dirichlet_boundary_data dict rest with
      | error e => rw [hgen] at h; exact absurd h (by simp)
      | ok pr2 =>
        rw [hgen] at h
        injection h with h2
        rw [Prod.mk.injEq] at h2
        rw [← h2.1, List.length_append, List.map_cons, List.sum_cons,
          dirichletPts_length dict tag pts pr1.1 pr1.2 (by rw [hdp]),
          generate_dirichlet_length dict rest pr2.1 pr2.2 (by rw [hgen])]

/-- Claim C8: after space construction completes, `total_dofs` equals the
sum over all cells of the cell's quadrature-point count (the second
dimension of its basis-value matrix, i.e. its row length), and
`total_dirichlet_dofs` equals the total count of extracted boundary
points, i.e. the sum over all boundary tags of the number of points
listed for that tag. -/
theorem claim_C8_dof_totals (cells : List CellRecord)
    (bps : List (ℕ × List (ℚ × ℚ))) (dict : List (ℕ × (ℚ → ℚ → ℚ)))
    (ct : String) (sp : Fespace)
    (h : Fespace.make cells bps dict ct = Except.ok sp) :
    sp.total_dofs = (sp.fe_cell.map (fun c => (c.basis_at_quad.getD 0 []).length)).sum
  ∧ sp.total_dirichlet_dofs = (sp.boundary_points.map (fun tp => tp.2.length)).sum := by
  rw [Fespace.make] at h
  split at h
  · exact absurd h (by simp)
  · cases hgen : generate_dirichlet_boundary_data dict bps with
    | error e => rw [hgen] at h; exact absurd h (by simp)
    | ok pr =>
      rw [hgen] at h
      injection h with h2
      rw [← h2]
      exact ⟨set_finite_elements_dof_count_eq cells,
        generate_dirichlet_length dict bps pr.1 pr.2 (by rw [hgen])⟩

/-- Witness for C8: a concrete two-cell construction (two quadrature
points per cell, one boundary point on one tag). -/
theorem claim_C8_witness :
    (Fespace.make spSample.fe_cell [(1000, [((0 : ℚ), (0 : ℚ))])]
        [(1000, fun x y => x + y)] "quadrilateral"
      = Except.ok
          { n_cells := 2
            fe_cell := spSample.fe_cell
            boundary_points := [(1000, [((0 : ℚ), (0 : ℚ))])]
            bound_function_dict := [(1000, fun x y => x + y)]
            total_dofs := 4
            total_dirichlet_dofs := 1
            dirichlet_x := [((0 : ℚ), (0 : ℚ))]
            dirichlet_y := [(0 : ℚ) + 0] })
  ∧ (4 : ℕ) = ((spSample.fe_cell).map (fun c => (c.basis_at_quad.getD 0 []).length)).sum
  ∧ (1 : ℕ) = (([(1000, [((0 : ℚ), (0 : ℚ))])] : List (ℕ × List (ℚ × ℚ))).map
      (fun tp => tp.2.length)).sum := by
  refine ⟨rfl, ?_, ?_⟩
  · exact (claim_C8_dof_totals spSample.fe_cell [(1000, [((0 : ℚ), (0 : ℚ))])]
      [(1000, fun x y => x + y)] "quadrilateral" _ rfl).1
  · exact (claim_C8_dof_totals spSample.fe_cell [(1000, [((0 : ℚ), (0 : ℚ))])]
      [(1000, fun x y => x + y)] "quadrilateral" _ rfl).2

/-! ## Claim C9: boundary tags missing from the function dictionary -/

lemma dirichletPts_error_char (dict : List (ℕ × (ℚ → ℚ → ℚ))) (tag : ℕ) :
    ∀ (pts : List (ℚ × ℚ)) (e : PyErr),
      dirichletPts dict tag pts = Except.error e →
      e = PyErr.keyError tag ∧ List.lookup tag dict = none
  | [], e, h => by
    rw [dirichletPts] at h
    exact absurd h (by simp)
  | pt :: rest, e, h => by
    rw [dirichletPts] at h
    cases hlk : List.lookup tag dict with
    | none =>
      rw [hlk] at h
      injection h with h2
      exact ⟨h2.symm, rfl⟩
    | some f =>
      rw [hlk] at h
      cases hrec : dirichletPts dict tag rest with
      | error e2 =>
        rw [hrec] at h
        injection h with h2
        obtain ⟨he, hl⟩ := dirichletPts_error_char dict tag rest e2 (by rw [hrec])
        rw [hl] at hlk
        exact absurd hlk (by simp)
      | ok pr => rw [hrec] at h; exact absurd h (by simp)

lemma dirichletPts_missing (dict : List (ℕ × (ℚ → ℚ → ℚ))) (tag : ℕ)
    (pt : ℚ × ℚ) (rest : List (ℚ × ℚ)) (h : List.lookup tag dict = none) :
    dirichletPts dict tag (pt :: rest) = Except.error (PyErr.keyError tag) := by
  rw [dirichletPts, h]

lemma generate_dirichlet_missing (dict : List (ℕ × (ℚ → ℚ → ℚ))) :
    ∀ (bps : List (ℕ × List (ℚ × ℚ))) (tag : ℕ) (pts : List (ℚ × ℚ)),
      (tag, pts) ∈ bps → pts ≠ [] → List.lookup tag dict = none →
      ∃ t, generate_dirichlet_boundary_data dict bps
          = Except.error (PyErr.keyError t) ∧ List.lookup t dict = none
  | [], tag, pts, hmem, _, _ => absurd hmem (List.not_mem_nil _)
  | (tag0, pts0) :: rest, tag, pts, hmem, hne, hmiss => by
    rw [generate_dirichlet_boundary_data]
    cases hdp : dirichletPts dict tag0 pts0 with
    | error e =>
      obtain ⟨he, hl⟩ := dirichletPts_error_char dict tag0 pts0 e hdp
      refine ⟨tag0, ?_, hl⟩
      rw [he]
    | ok pr =>
      rcases List.mem_cons.mp hmem with heq | hrest
      · rw [Prod.mk.injEq] at heq
        rw [← heq.1, ← heq.2] at hdp
        cases pts with
        | nil => exact absurd rfl hne
        | cons pt prest =>
          rw [dirichletPts_missing dict tag pt prest hmiss] at hdp
          exact absurd hdp (by simp)
      · obtain ⟨t, hgen, hl⟩ := generate_dirichlet_missing dict rest tag pts hrest hne hmiss
        refine ⟨t, ?_, hl⟩
        rw [hgen]

/-- Amended claim C9: for every boundary tag that is present in the
boundary-point mapping with at least one listed point and absent from the
boundary-function dictionary, Dirichlet boundary-data extraction (and
hence space construction, for any non-triangle cell type) fails with a
`KeyError` naming a tag that is missing from the dictionary, rather than
skipping the tag or substituting a default value.  (A tag mapped to an
empty point sequence never reaches the dictionary lookup, which is the
single correction to the original claim.) -/
theorem claim_C9_missing_tag (dict : List (ℕ × (ℚ → ℚ → ℚ)))
    (bps : List (ℕ × List (ℚ × ℚ))) (tag : ℕ) (pts : List (ℚ × ℚ))
    (hmem : (tag, pts) ∈ bps) (hne : pts ≠ [])
    (hmiss : List.lookup tag dict = none) :
    (∃ t, generate_dirichlet_boundary_data dict bps
        = Except.error (PyErr.keyError t) ∧ List.lookup t dict = none)
  ∧ ∀ (cells : List CellRecord) (ct : String), ct ≠ "triangle" →
      ∃ t, Fespace.make cells bps dict ct = Except.error (PyErr.keyError t)
        ∧ List.lookup t dict = none := by
  obtain ⟨t, hgen, hl⟩ := generate_dirichlet_missing dict bps tag pts hmem hne hmiss
  refine ⟨⟨t, hgen, hl⟩, ?_⟩
  intro cells ct hct
  refine ⟨t, ?_, hl⟩
  rw [Fespace.make, if_neg hct, hgen]

/-- Counterexample to claim C9 as stated: the tag `1000` is present in
the boundary-point mapping (with an empty point list) and absent from the
(empty) boundary-function dictionary, yet extraction succeeds and returns
empty data instead of failing with a lookup error. -/
theorem claim_C9_counterexample :
    generate_dirichlet_boundary_data ([] : List (ℕ × (ℚ → ℚ → ℚ)))
        [(1000, ([] : List (ℚ × ℚ)))] = Except.ok ([], [])
  ∧ (1000, ([] : List (ℚ × ℚ))) ∈ [(1000, ([] : List (ℚ × ℚ)))]
  ∧ List.lookup 1000 ([] : List (ℕ × (ℚ → ℚ → ℚ))) = none :=
  ⟨rfl, List.mem_singleton.mpr rfl, rfl⟩

/-- Witness for (the amended) C9: tag `7` has one point and no dictionary
entry, and extraction fails with a `KeyError`. -/
theorem claim_C9_witness :
    ((7, [((0 : ℚ), (0 : ℚ))]) ∈ [(7, [((0 : ℚ), (0 : ℚ))])]
      ∧ ([((0 : ℚ), (0 : ℚ))] : List (ℚ × ℚ)) ≠ []
      ∧ List.lookup 7 ([] : List (ℕ × (ℚ → ℚ → ℚ))) = none)
  ∧ (∃ t, generate_dirichlet_boundary_data ([] : List (ℕ × (ℚ → ℚ → ℚ)))
        [(7, [((0 : ℚ), (0 : ℚ))])] = Except.error (PyErr.keyError t)
      ∧ List.lookup t ([] : List (ℕ × (ℚ → ℚ → ℚ))) = none) :=
  ⟨⟨List.mem_singleton.mpr rfl, by simp, rfl⟩,
    (claim_C9_missing_tag ([] : List (ℕ × (ℚ → ℚ → ℚ)))
      [(7, [((0 : ℚ), (0 : ℚ))])] 7 [((0 : ℚ), (0 : ℚ))]
      (List.mem_singleton.mpr rfl) (by simp) rfl).1⟩

end FastVPinns
